import Mathlib

/- Verification development for the rss-to-kindle repository (src/rss_to_kindle.py and
src/test_local.py). The Python pipeline manipulates HTML through BeautifulSoup parse
trees; here HTML documents are embedded as explicit parse forests (`Html`, `Forest`).
The BeautifulSoup string-to-tree parser itself is left outside the model: every content
value enters the model already parsed, and `renderF` models `str(soup)` serialization
(text escaped, attributes quoted). Network, filesystem and LLM effects are passed in as
explicit oracle functions, and clock values are explicit parameters, so that every
definition is an executable function of its inputs. -/

/- An HTML node: either a text node or an element with a tag name, an attribute list
(in document order, as BeautifulSoup keeps them) and a forest of children. `Forest` is
a specialized list of nodes, kept mutual with `Html` so that all tree recursions below
are structural and compute by `rfl`. -/
mutual
inductive Html where
  | text : String → Html
  | elem : String → List (String × String) → Forest → Html
inductive Forest where
  | nil : Forest
  | cons : Html → Forest → Forest
end

/- Concatenation of two forests, mirroring how BeautifulSoup splices the children of an
unwrapped tag into its parent. -/
def Forest.append : Forest → Forest → Forest
  | .nil, g => g
  | .cons h t, g => .cons h (Forest.append t g)

/- Tags removed outright by sanitize_html, from the decompose loop of
src/rss_to_kindle.py line 21. -/
def removedTags : List String := ["script", "style", "svg", "button", "form", "iframe", "noscript"]

/- Tag allow-list of sanitize_html, src/rss_to_kindle.py line 25. -/
def allowedTags : List String := ["p", "h1", "h2", "h3", "h4", "h5", "h6", "ul", "ol", "li", "a", "strong", "em", "b", "i", "blockquote", "pre", "code", "br", "hr", "div", "span"]

/- Attribute allow-list of sanitize_html, src/rss_to_kindle.py line 26. -/
def allowedAttrs : List String := ["href", "src", "alt", "title", "id"]

/- Model of sanitize_html (src/rss_to_kindle.py lines 13-39) on a parse forest.
The Python function first decomposes every tag in removedTags (subtree dropped with
its contents), then walks all remaining tags: a tag not in allowedTags is unwrapped
(tag removed, children kept in place), an allowed tag keeps only attributes in
allowedAttrs. Both passes commute into the single recursive walk below because the
decompose pass never looks at decomposed subtrees again and the unwrap pass handles
each surviving tag exactly once. Empty input (Python: empty string returns the empty
string) is the .nil case. -/
def sanitize_html : Forest → Forest
  | .nil => .nil
  | .cons (.text s) rest => .cons (.text s) (sanitize_html rest)
  | .cons (.elem name attrs children) rest =>
    if name ∈ removedTags then sanitize_html rest
    else if name ∈ allowedTags then
      .cons (.elem name (attrs.filter (fun a => a.1 ∈ allowedAttrs)) (sanitize_html children)) (sanitize_html rest)
    else Forest.append (sanitize_html children) (sanitize_html rest)

/- Serialization of one attribute in BeautifulSoup output form. -/
def renderAttrs (attrs : List (String × String)) : String :=
  String.join (attrs.map (fun a => " " ++ a.1 ++ "=\"" ++ a.2 ++ "\""))

/- Escape of one text character in BeautifulSoup output form. -/
def escapeChar (c : Char) : String :=
  if c = '&' then "&amp;" else if c = '<' then "&lt;" else if c = '>' then "&gt;" else String.singleton c

/- Escape of a text node in BeautifulSoup output form. -/
def escapeText (s : String) : String := String.join (s.data.map escapeChar)

/- Serialization of a parse tree back to an HTML string; models str(soup) and str(p)
in the Python sources (modulo BeautifulSoup formatting of void elements, which none of
the verified claims depend on). -/
mutual
def render : Html → String
  | .text s => escapeText s
  | .elem name attrs children =>
    "<" ++ name ++ renderAttrs attrs ++ ">" ++ renderF children ++ "</" ++ name ++ ">"
def renderF : Forest → String
  | .nil => ""
  | .cons h t => render h ++ renderF t
end

/- All text content of a forest, in document order. -/
def textsF : Forest → List String
  | .nil => []
  | .cons (.text s) rest => s :: textsF rest
  | .cons (.elem _ _ children) rest => textsF children ++ textsF rest

/- Text content of a forest lying outside every removed element: the text a reader of
the sanitized document could still see. -/
def keptTextsF : Forest → List String
  | .nil => []
  | .cons (.text s) rest => s :: keptTextsF rest
  | .cons (.elem name _ children) rest =>
    if name ∈ removedTags then keptTextsF rest
    else keptTextsF children ++ keptTextsF rest

theorem forest_append_assoc (a b c : Forest) :
    Forest.append (Forest.append a b) c = Forest.append a (Forest.append b c) := by
  induction a, b using Forest.append.induct with
  | case1 g => rfl
  | case2 h t g ih => simp [Forest.append, ih]

theorem sanitize_html_append (a b : Forest) :
    sanitize_html (Forest.append a b) = Forest.append (sanitize_html a) (sanitize_html b) := by
  induction a using sanitize_html.induct with
  | case1 => rfl
  | case2 s rest ih => simp [sanitize_html, Forest.append, ih]
  | case3 name attrs children rest h ih => simp [sanitize_html, Forest.append, h, ih]
  | case4 name attrs children rest h h2 ih1 ih2 =>
    simp [sanitize_html, Forest.append, h, h2, ih1, ih2]
  | case5 name attrs children rest h h2 ih1 ih2 =>
    simp [sanitize_html, Forest.append, h, h2, ih1, ih2, forest_append_assoc]

theorem textsF_append (a b : Forest) :
    textsF (Forest.append a b) = textsF a ++ textsF b := by
  induction a using textsF.induct with
  | case1 => rfl
  | case2 s rest ih => simp [textsF, Forest.append, ih]
  | case3 name attrs children rest ih1 ih2 => simp [textsF, Forest.append, ih1, ih2]

theorem textsF_sanitize (f : Forest) : textsF (sanitize_html f) = keptTextsF f := by
  induction f using sanitize_html.induct with
  | case1 => rfl
  | case2 s rest ih => simp [sanitize_html, textsF, keptTextsF, ih]
  | case3 name attrs children rest h ih =>
    simp [sanitize_html, keptTextsF, h, ih]
  | case4 name attrs children rest h h2 ih1 ih2 =>
    simp [sanitize_html, textsF, keptTextsF, h, h2, ih1, ih2]
  | case5 name attrs children rest h h2 ih1 ih2 =>
    simp [sanitize_html, textsF_append, keptTextsF, h, h2, ih1, ih2]

theorem sanitize_html_idempotent (f : Forest) :
    sanitize_html (sanitize_html f) = sanitize_html f := by
  induction f using sanitize_html.induct with
  | case1 => rfl
  | case2 s rest ih => simp [sanitize_html, ih]
  | case3 name attrs children rest h ih => simp [sanitize_html, h, ih]
  | case4 name attrs children rest h h2 ih1 ih2 =>
    simp [sanitize_html, h, h2, ih1, ih2, List.filter_filter]
  | case5 name attrs children rest h h2 ih1 ih2 =>
    simp [sanitize_html_append, sanitize_html, h, h2, ih1, ih2]

/- Decimal digits of a natural number, least significant first, written with a fuel
argument so the recursion is structural and computes inside the kernel; fuel n always
suffices since the value shrinks by a factor of ten per digit. -/
def decGo : Nat → Nat → List Nat
  | 0, n => [n % 10]
  | fuel + 1, n => if n < 10 then [n] else n % 10 :: decGo fuel (n / 10)

/- Decimal digits of a natural number, least significant first; mirrors how Python
str(i) renders the loop indices interpolated into anchor ids. -/
def decLE (n : Nat) : List Nat := decGo n n

/- Value of a little-endian digit list, the inverse of decLE. -/
def valLE : List Nat → Nat
  | [] => 0
  | d :: ds => d + 10 * valLE ds

/- One decimal digit as a character. -/
def digitChar : Nat → Char
  | 0 => '0'
  | 1 => '1'
  | 2 => '2'
  | 3 => '3'
  | 4 => '4'
  | 5 => '5'
  | 6 => '6'
  | 7 => '7'
  | 8 => '8'
  | _ => '9'

/- Model of Python str on a nonnegative integer index: its decimal numeral. -/
def natStr (n : Nat) : String := String.mk ((decLE n).reverse.map digitChar)

theorem valLE_decGo (fuel : Nat) : ∀ n : Nat, n ≤ fuel → valLE (decGo fuel n) = n := by
  induction fuel with
  | zero =>
    intro n h
    have h0 : n = 0 := by omega
    subst h0
    rfl
  | succ fuel ih =>
    intro n h
    by_cases h10 : n < 10
    · simp [decGo, h10, valLE]
    · have hle : n / 10 ≤ fuel := by
        have hdl := Nat.div_lt_self (show 0 < n by omega) (show 1 < 10 by omega)
        omega
      simp [decGo, h10, valLE, ih (n / 10) hle]
      omega

theorem valLE_decLE (n : Nat) : valLE (decLE n) = n := valLE_decGo n n (Nat.le_refl n)

theorem decGo_lt_ten (fuel : Nat) : ∀ n : Nat, ∀ d ∈ decGo fuel n, d < 10 := by
  induction fuel with
  | zero =>
    intro n d hd
    simp [decGo] at hd
    subst hd
    exact Nat.mod_lt _ (by omega)
  | succ fuel ih =>
    intro n d hd
    by_cases h10 : n < 10
    · simp [decGo, h10] at hd
      omega
    · simp [decGo, h10] at hd
      rcases hd with hd | hd
      · subst hd
        exact Nat.mod_lt _ (by omega)
      · exact ih (n / 10) d hd

theorem decLE_lt_ten (n : Nat) : ∀ d ∈ decLE n, d < 10 := decGo_lt_ten n n

theorem digitChar_inj_lt : ∀ a < 10, ∀ b < 10, digitChar a = digitChar b → a = b := by decide

theorem map_digitChar_inj : ∀ l1 l2 : List Nat, (∀ d ∈ l1, d < 10) → (∀ d ∈ l2, d < 10) →
    l1.map digitChar = l2.map digitChar → l1 = l2 := by
  intro l1
  induction l1 with
  | nil => intro l2 _ _ h; cases l2 <;> simp_all
  | cons a t ih =>
    intro l2 h1 h2 h
    cases l2 with
    | nil => simp_all
    | cons b t2 =>
      simp only [List.map_cons, List.cons.injEq] at h
      have hab := digitChar_inj_lt a (h1 a (by simp)) b (h2 b (by simp)) h.1
      subst hab
      rw [ih t2 (fun d hd => h1 d (by simp [hd])) (fun d hd => h2 d (by simp [hd])) h.2]

theorem natStr_injective : Function.Injective natStr := by
  intro a b h
  have h2 : (decLE a).reverse.map digitChar = (decLE b).reverse.map digitChar :=
    congrArg String.data h
  have h3 : (decLE a).reverse = (decLE b).reverse :=
    map_digitChar_inj _ _
      (fun d hd2 => decLE_lt_ten a d (List.mem_reverse.mp hd2))
      (fun d hd2 => decLE_lt_ten b d (List.mem_reverse.mp hd2)) h2
  have h4 : decLE a = decLE b := List.reverse_injective h3
  have h5 := congrArg valLE h4
  simpa [valLE_decLE] using h5

/- Characters treated as whitespace by Python str.strip with no argument. -/
def isPySpace (c : Char) : Bool :=
  c == ' ' || c == '\t' || c == '\n' || c == '\x0b' || c == '\x0c' || c == '\r'

/- Model of Python str.strip(): drop whitespace from both ends. -/
def pyStrip (s : String) : String :=
  String.mk (((s.data.dropWhile isPySpace).reverse.dropWhile isPySpace).reverse)

/- One feed entry as the feedparser layer hands it to the pipelines. Optional fields
model feed keys that may be absent: id falls back to the link (entry.get with default),
published to the wall clock, and the three content-ish fields feed the
summary-description-content fallback chain. Timestamps are integer seconds since the
Unix epoch; content-valued fields are parse forests (see the header note). -/
structure RawEntry where
  id : Option String
  title : String
  link : String
  published : Option Int
  summary : Option Forest
  description : Option Forest
  contentValue : Option Forest

/- One parsed feed: its display title and its entries in feed order. -/
structure Feed where
  title : String
  entries : List RawEntry

/- Entry identifier: entry.get with the link as default, as both pipelines compute it. -/
def idOf (e : RawEntry) : String := e.id.getD e.link

/- Publish timestamp with the wall-clock default both pipelines use when the feed
omits published_parsed. -/
def pubDate (now : Int) (e : RawEntry) : Int := e.published.getD now

/- Feed-native fallback content, priority order summary then description then first
content value then empty, from the nested entry.get chain at src/rss_to_kindle.py
line 145 and src/test_local.py line 114. -/
def fallbackRaw (e : RawEntry) : Forest :=
  e.summary.getD (e.description.getD (e.contentValue.getD .nil))

/- Newline join of the collected paragraph elements, modelling
chr(10).join(str(p) for p in paragraphs) at the parse-tree level. -/
def joinParas : Forest → Forest
  | .nil => .nil
  | .cons p .nil => .cons p .nil
  | .cons p (.cons q rest) => .cons p (.cons (.text "\n") (joinParas (.cons q rest)))

/- Emptiness test on a forest; models Python truthiness of the paragraph list. -/
def Forest.isNil : Forest → Bool
  | .nil => true
  | .cons _ _ => false

/- Model of scrape_article, src/rss_to_kindle.py lines 41-86 (the same code appears,
unreachable, inside get_summary in src/test_local.py lines 39-83). The fetch oracle
abstracts the whole effectful front half: HTTP GET with timeout, raise_for_status,
parsing, noise-tag removal and the selector-chain search; it yields none when any of
that fails (exception, non-2xx, no matching container) and some paras when a container
was found with block-level descendants paras. The function then joins the serialized
paragraphs with newlines and rejects results of length at most 200, exactly as lines
76-83 do; every failure path is the value none, never an exception, because the whole
Python body sits inside try/except returning None. -/
def scrape_article (fetch : String → Option Forest) (url : String) : Option Forest :=
  match fetch url with
  | none => none
  | some paras =>
    if paras.isNil then none
    else if 200 < (renderF (joinParas paras)).length then some (joinParas paras) else none

namespace RssToKindle

/- Processed entry record appended at src/rss_to_kindle.py lines 150-156. -/
structure Entry where
  id : String
  title : String
  link : String
  content : String
  source : String

/- Upper window bound: now.replace(hour=2, minute=0, second=0, microsecond=0) in UTC,
src/rss_to_kindle.py line 126, expressed on epoch seconds by flooring to the current
UTC day. -/
def cutoff_end (now : Int) : Int := 86400 * Int.fdiv now 86400 + 7200

/- Lower window bound: cutoff_end minus timedelta(days=1), src/rss_to_kindle.py
line 125. -/
def cutoff_start (now : Int) : Int := cutoff_end now - 86400

/- Window test of src/rss_to_kindle.py line 138: cutoff_start <= pub_date < cutoff_end,
with the missing-timestamp default of line 136. -/
def inWindow (now : Int) (e : RawEntry) : Bool :=
  decide (cutoff_start now ≤ pubDate now e) && decide (pubDate now e < cutoff_end now)

/- Per-entry processing of src/rss_to_kindle.py lines 142-156: scrape, fall back to
feed content when the scrape yields nothing, sanitize, and build the record. The
Python strip() before sanitize_html only trims outer whitespace of the serialized
string and is absorbed by the parse-forest representation. -/
def processEntry (fetch : String → Option Forest) (feedTitle : String) (e : RawEntry) : Entry :=
  let full := match scrape_article fetch e.link with
    | some c => c
    | none => fallbackRaw e
  { id := idOf e, title := e.title, link := e.link,
    content := renderF (sanitize_html full), source := feedTitle }

/- Model of fetch_new_entries, src/rss_to_kindle.py lines 116-162 (window variant):
for each feed in order, keep the entries inside the time window, in feed order, with
no persisted state. The feeds.txt read and feedparser.parse calls are abstracted into
the feeds argument. -/
def fetch_new_entries (now : Int) (fetch : String → Option Forest) (feeds : List Feed) : List Entry :=
  feeds.flatMap (fun fd => (fd.entries.filter (inWindow now)).map (processEntry fetch fd.title))

/- Concatenated article block fed to the digest prompt, src/rss_to_kindle.py
lines 93-96, content truncated to 2000 characters. -/
def articlesText (entries : List Entry) : String :=
  String.intercalate "\n\n" (entries.map (fun e =>
    "Title: " ++ e.title ++ "\nSource: " ++ e.source ++ "\nContent: " ++ e.content.take 2000))

/- The digest prompt template of src/rss_to_kindle.py lines 98-108. -/
def digestPrompt (entries : List Entry) : String :=
  "Analyze this collection of AI/ML research articles and provide a concise digest summary that:\n1. Identifies the main themes and trends across all articles\n2. Highlights the most significant findings or innovations\n3. Notes any connections or patterns between different articles\n\nArticles:\n<Articles>\n" ++ articlesText entries ++ "\n</Articles>\n\nProvide an engaging 2-3 paragraph summary of the entire digest."

/- Model of get_digest_summary, src/rss_to_kindle.py lines 88-114. The llm oracle
abstracts the whole guarded region (configure, model construction, generate_content,
response.text): none is any raised exception, auth, network or quota failure included;
some t is a successful response text, stripped on return. -/
def get_digest_summary (llm : String → Option String) (entries : List Entry) : String :=
  match llm (digestPrompt entries) with
  | some t => pyStrip t
  | none => "Summary unavailable"

end RssToKindle

/- Enumeration of a list starting at 1, modelling Python enumerate(entries, 1). -/
def enum1 {α : Type} (es : List α) : List (Nat × α) :=
  es.enum.map (fun p => (p.1 + 1, p.2))

namespace RssToKindle

/- Head of the HTML digest up to the open table-of-contents list, src/rss_to_kindle.py
lines 168-185; the two strftime values are passed in as the dateShort and dateLong
parameters. -/
def htmlHead (dateShort dateLong : String) (n : Nat) (digest : String) : String :=
  "<!DOCTYPE html>\n<html>\n<head>\n<meta charset=\"utf-8\">\n<title>AI Research Digest - " ++ dateShort ++ "</title>\n</head>\n<body>\n\n<h1>AI Research Digest</h1>\n<p><strong>" ++ dateLong ++ "</strong></p>\n<p>" ++ natStr n ++ " articles</p>\n\n<h2>Digest Summary</h2>\n<p>" ++ digest ++ "</p>\n\n<h2>Table of Contents</h2>\n<ol>\n"

/- One table-of-contents item, src/rss_to_kindle.py line 189. -/
def tocItem (i : Nat) (e : Entry) : String :=
  "<li><a href=\"#article" ++ natStr i ++ "\">" ++ e.title ++ "</a> - " ++ e.source ++ "</li>\n"

/- One article section with its anchor id, src/rss_to_kindle.py lines 195-203. -/
def articleSection (i : Nat) (e : Entry) : String :=
  "\n<h2 id=\"article" ++ natStr i ++ "\">" ++ natStr i ++ ". " ++ e.title ++ "</h2>\n<p><strong>Source:</strong> " ++ e.source ++ "</p>\n<p><strong>Link:</strong> <a href=\"" ++ e.link ++ "\">" ++ e.link ++ "</a></p>\n<hr>\n" ++ e.content ++ "\n<hr>\n\n"

/- Model of create_html, src/rss_to_kindle.py lines 164-206. -/
def create_html (es : List Entry) (digest dateShort dateLong : String) : String :=
  htmlHead dateShort dateLong es.length digest
  ++ String.join ((enum1 es).map (fun p => tocItem p.1 p.2))
  ++ "</ol>\n<hr>\n\n"
  ++ String.join ((enum1 es).map (fun p => articleSection p.1 p.2))
  ++ "</body></html>"

/- Introduction page content of the EPUB, src/rss_to_kindle.py lines 234-243; the
surrounding ebooklib packaging (book metadata, spine, navigation) is outside the
model, which keeps only the markup the code interpolates. -/
def introContent (dateLong : String) (n : Nat) (digest : String) : String :=
  "\n    <html><body>\n    <h1>AI Research Digest</h1>\n    <p><strong>" ++ dateLong ++ "</strong></p>\n    <p>Compiled by RSS to Kindle</p>\n    <p>" ++ natStr n ++ " articles in this digest</p>\n    <h2>Digest Summary</h2>\n    <p>" ++ digest ++ "</p>\n    </body></html>\n    "

/- Chapter content for one article in the EPUB, src/rss_to_kindle.py lines 253-261. -/
def chapterContent (e : Entry) : String :=
  "\n        <html><body>\n        <h1>" ++ e.title ++ "</h1>\n        <p><strong>Source:</strong> " ++ e.source ++ "</p>\n        <p><a href=\"" ++ e.link ++ "\">Read online</a></p>\n        <hr/>\n        " ++ e.content ++ "\n        </body></html>\n        "

end RssToKindle

namespace TestLocal

/- Processed entry record appended at src/test_local.py lines 121-128. -/
structure Entry where
  id : String
  title : String
  link : String
  summary : String
  content : String
  source : String

/- The per-article prompt template of src/test_local.py lines 24-33, content truncated
to 3000 characters. -/
def articlePrompt (title content : String) : String :=
  "Analyze this AI/ML research article and provide a concise summary that captures:\n1. The core innovation or finding\n2. Why it matters (practical implications or theoretical significance)\n3. Any notable limitations or caveats\n\nTitle: " ++ title ++ "\n\nContent: " ++ content.take 3000 ++ "\n\nProvide a clear, engaging summary in 3-4 sentences that would help a technical reader decide if they should read the full article."

/- Model of get_summary, src/test_local.py lines 19-38 (its live body; the unreachable
scraping code after the first return is modelled separately as scrape_article). The
llm oracle abstracts the guarded generate_content call: none is any raised exception,
some t a successful response text, stripped on return. -/
def get_summary (llm : String → Option String) (title content : String) : String :=
  match llm (articlePrompt title content) with
  | some t => pyStrip t
  | none => "Summary unavailable"

/- Per-entry processing of src/test_local.py lines 110-128: scrape (src/test_local.py
calls scrape_article, whose definition lives in src/rss_to_kindle.py, see the C3
analysis), fall back to feed content, strip, summarize, build the record. No
sanitization in this variant. -/
def processEntry (fetch : String → Option Forest) (llm : String → Option String)
    (feedTitle : String) (e : RawEntry) : Entry :=
  let full := match scrape_article fetch e.link with
    | some c => c
    | none => fallbackRaw e
  let contentStr := pyStrip (renderF full)
  { id := idOf e, title := e.title, link := e.link,
    summary := get_summary llm e.title contentStr,
    content := contentStr, source := feedTitle }

/- Dedup-variant cutoff: datetime.now() - timedelta(days=1), src/test_local.py
line 91. -/
def cutoff (now : Int) : Int := now - 86400

/- Selection loop over one feed, src/test_local.py lines 99-129: skip when the id is
already a key of the (mutating) store, skip when the publish time is before the
cutoff, otherwise keep the entry and record its id in the store with the iso
timestamp. The store is a Python dict in insertion order, modelled as an association
list extended at the tail. Returns the kept raw entries in order and the updated
store. -/
def selectGo (now : Int) (iso : String) (store : List (String × String)) :
    List RawEntry → List RawEntry × List (String × String)
  | [] => ([], store)
  | e :: es =>
    if idOf e ∈ store.map Prod.fst then selectGo now iso store es
    else if pubDate now e < cutoff now then selectGo now iso store es
    else
      let r := selectGo now iso (store ++ [(idOf e, iso)]) es
      (e :: r.1, r.2)

/- Feed loop of src/test_local.py lines 94-129, threading the store across feeds. -/
def feedsGo (now : Int) (fetch : String → Option Forest) (llm : String → Option String)
    (iso : String) (store : List (String × String)) :
    List Feed → List Entry × List (String × String)
  | [] => ([], store)
  | fd :: fds =>
    let r := selectGo now iso store fd.entries
    let pr := feedsGo now fetch llm iso r.2 fds
    (r.1.map (processEntry fetch llm fd.title) ++ pr.1, pr.2)

/- Model of fetch_new_entries, src/test_local.py lines 85-133 (dedup variant): load
the persisted store (the loaded argument), walk the feeds selecting fresh recent
entries while extending the store, and persist the final store (save_sent_items at
line 131, the second component of the result) before returning. Scraping and
summarizing of a selected entry happen inside the loop in the source; they commute
out into processEntry because they never touch the store. -/
def fetch_new_entries (now : Int) (fetch : String → Option Forest)
    (llm : String → Option String) (iso : String) (loaded : List (String × String))
    (feeds : List Feed) : List Entry × List (String × String) :=
  feedsGo now fetch llm iso loaded feeds

/- One table-of-contents item, src/test_local.py line 138. -/
def tocItem (i : Nat) (e : Entry) : String :=
  "<li><a href=\"#article" ++ natStr i ++ "\">" ++ e.title ++ "</a></li>"

/- Table of contents block, src/test_local.py lines 136-139. -/
def toc (es : List Entry) : String :=
  "<h2>Table of Contents</h2><ol>" ++ String.join ((enum1 es).map (fun p => tocItem p.1 p.2)) ++ "</ol><mbp:pagebreak/>"

/- Document head of the local digest, src/test_local.py lines 141-152. -/
def htmlHead (dateShort dateLong : String) (es : List Entry) : String :=
  "<html><head><meta charset=\"utf-8\"><title>AI Research Digest - " ++ dateShort ++ "</title>\n<style>\nbody \x7b font-family: serif; line-height: 1.6; margin: 20px; \x7d\n.summary \x7b background: #f5f5f5; padding: 10px; margin: 10px 0; border-left: 3px solid #333; \x7d\n.full-text \x7b margin-top: 15px; \x7d\na \x7b color: #0066cc; \x7d\n</style>\n</head><body>\n<h1>AI Research Digest</h1>\n<p><em>" ++ dateLong ++ "</em></p>\n" ++ toc es ++ "\n"

/- One article block with its anchor id, src/test_local.py lines 154-168. -/
def articleDiv (i : Nat) (e : Entry) : String :=
  "\n<mbp:pagebreak/>\n<div id=\"article" ++ natStr i ++ "\">\n<h2>" ++ e.title ++ "</h2>\n<p><strong>Source:</strong> " ++ e.source ++ "</p>\n<div class=\"summary\">\n<p><strong>AI Summary:</strong> " ++ e.summary ++ "</p>\n</div>\n<p><a href=\"" ++ e.link ++ "\">View online</a></p>\n<div class=\"full-text\">\n<h3>Full Article</h3>\n" ++ e.content ++ "\n</div>\n</div>\n"

/- Model of create_html, src/test_local.py lines 135-170. -/
def create_html (es : List Entry) (dateShort dateLong : String) : String :=
  htmlHead dateShort dateLong es ++ String.join ((enum1 es).map (fun p => articleDiv p.1 p.2)) ++ "</body></html>"

/- Observable persistence effects of one run, in order. -/
inductive Event where
  | saveStore : List (String × String) → Event
  | writeDigest : String → Event

/- Effect trace of the main block, src/test_local.py lines 172-185: fetch_new_entries
persists the updated store (inside the call, line 131), and only afterwards, when any
entries were selected, the digest file is written. -/
def main_run (now : Int) (fetch : String → Option Forest) (llm : String → Option String)
    (iso : String) (loaded : List (String × String)) (feeds : List Feed)
    (dateShort dateLong : String) : List Event :=
  let r := fetch_new_entries now fetch llm iso loaded feeds
  Event.saveStore r.2 ::
    (if r.1.isEmpty then [] else [Event.writeDigest (create_html r.1 dateShort dateLong)])

end TestLocal

/- Concrete oracle that always fails, for witnesses. -/
def llmFail : String → Option String := fun _ => none

/- Concrete fetch oracle that always fails, for witnesses. -/
def fetchFail : String → Option Forest := fun _ => none

/- Concrete paragraph forest whose serialized join is 9 characters long. -/
def shortParas : Forest := .cons (.elem "p" [] (.cons (.text "hi") .nil)) .nil

/- Concrete fetch oracle returning the short paragraph list, for the C4 witness. -/
def fetchShort : String → Option Forest := fun _ => some shortParas

/- Concrete entry carrying only a feed summary, for the fallback witnesses. -/
def eFall : RawEntry :=
  { id := none, title := "T", link := "http://ex/a", published := none,
    summary := some (.cons (.elem "p" [] (.cons (.text "fallback") .nil)) .nil),
    description := none, contentValue := none }

/- Concrete window-variant entry published 2024-01-01T01:59:00Z. -/
def entryAt0159 : RawEntry :=
  { id := some "e159", title := "early", link := "http://ex/1", published := some 1704074340,
    summary := none, description := none, contentValue := none }

/- Concrete window-variant entry published 2024-01-01T03:00:00Z. -/
def entryAt0300 : RawEntry :=
  { id := some "e300", title := "inside", link := "http://ex/2", published := some 1704078000,
    summary := none, description := none, contentValue := none }

/-- C5: the text content surviving sanitize_html is exactly the input text lying
outside script, style, svg, button, form, iframe and noscript elements, and a
document consisting of one such element sanitizes to nothing — none of the content
of a removed element appears in the output. -/
theorem c5_sanitize_removes_content :
    (∀ doc : Forest, textsF (sanitize_html doc) = keptTextsF doc)
    ∧ (∀ (attrs : List (String × String)) (children : Forest),
        sanitize_html (.cons (.elem "script" attrs children) .nil) = .nil
      ∧ sanitize_html (.cons (.elem "style" attrs children) .nil) = .nil
      ∧ sanitize_html (.cons (.elem "form" attrs children) .nil) = .nil
      ∧ sanitize_html (.cons (.elem "iframe" attrs children) .nil) = .nil
      ∧ sanitize_html (.cons (.elem "svg" attrs children) .nil) = .nil
      ∧ sanitize_html (.cons (.elem "button" attrs children) .nil) = .nil
      ∧ sanitize_html (.cons (.elem "noscript" attrs children) .nil) = .nil) :=
  ⟨textsF_sanitize, fun _ _ => ⟨rfl, rfl, rfl, rfl, rfl, rfl, rfl⟩⟩

/-- C6: sanitize_html is idempotent — sanitizing already-sanitized content returns it
unchanged, so the serialized output of a second pass is byte-identical to that of the
first pass. -/
theorem c6_sanitize_idempotent :
    ∀ doc : Forest,
      sanitize_html (sanitize_html doc) = sanitize_html doc
      ∧ renderF (sanitize_html (sanitize_html doc)) = renderF (sanitize_html doc) :=
  fun doc => ⟨sanitize_html_idempotent doc,
    congrArg renderF (sanitize_html_idempotent doc)⟩

/-- C1: the window-variant fetch_new_entries keeps exactly the entries satisfying
cutoff_start <= publishedAt < cutoff_end, where cutoff_end is the current UTC day
truncated to 02:00 UTC and cutoff_start is 24 hours earlier; with now =
2024-01-02T10:00:00Z (epoch 1704189600), an entry published 2024-01-01T01:59:00Z is
excluded and one published 2024-01-01T03:00:00Z is included. -/
theorem c1_window_selection :
    (∀ (now : Int) (fetch : String → Option Forest) (fd : Feed),
      RssToKindle.fetch_new_entries now fetch [fd]
        = (fd.entries.filter (RssToKindle.inWindow now)).map (RssToKindle.processEntry fetch fd.title))
    ∧ (∀ (now : Int) (e : RawEntry),
        RssToKindle.inWindow now e = true
          ↔ RssToKindle.cutoff_start now ≤ pubDate now e ∧ pubDate now e < RssToKindle.cutoff_end now)
    ∧ RssToKindle.cutoff_end 1704189600 = 1704160800
    ∧ RssToKindle.cutoff_start 1704189600 = 1704074400
    ∧ RssToKindle.inWindow 1704189600 entryAt0159 = false
    ∧ RssToKindle.inWindow 1704189600 entryAt0300 = true
    ∧ (∀ fetch : String → Option Forest,
        RssToKindle.fetch_new_entries 1704189600 fetch [⟨"F", [entryAt0159, entryAt0300]⟩]
          = [RssToKindle.processEntry fetch "F" entryAt0300]) := by
  refine ⟨?_, ?_, by decide, by decide, by decide, by decide, ?_⟩
  · intro now fetch fd
    simp [RssToKindle.fetch_new_entries]
  · intro now e
    simp [RssToKindle.inWindow]
  · intro fetch
    have h1 : RssToKindle.inWindow 1704189600 entryAt0159 = false := by decide
    have h2 : RssToKindle.inWindow 1704189600 entryAt0300 = true := by decide
    simp [RssToKindle.fetch_new_entries, List.filter_cons, h1, h2]

/-- C7: both summarizers substitute the placeholder string on remote failure:
get_digest_summary (batch digest mode) and get_summary (per-article mode) return
exactly "Summary unavailable" whenever the generative-call oracle fails, and being
total functions they cannot propagate the failure to the caller. -/
theorem c7_summary_placeholder :
    ∀ (llm : String → Option String) (entries : List RssToKindle.Entry) (title content : String),
      (llm (RssToKindle.digestPrompt entries) = none →
        RssToKindle.get_digest_summary llm entries = "Summary unavailable")
      ∧ (llm (TestLocal.articlePrompt title content) = none →
        TestLocal.get_summary llm title content = "Summary unavailable") := by
  intro llm entries title content
  constructor
  · intro h
    simp [RssToKindle.get_digest_summary, h]
  · intro h
    simp [TestLocal.get_summary, h]

/-- Witness for c7_summary_placeholder at a concrete always-failing oracle. -/
theorem c7_summary_placeholder_witness :
    RssToKindle.get_digest_summary llmFail [] = "Summary unavailable"
    ∧ TestLocal.get_summary llmFail "t" "c" = "Summary unavailable" :=
  ⟨(c7_summary_placeholder llmFail [] "t" "c").1 rfl,
   (c7_summary_placeholder llmFail [] "t" "c").2 rfl⟩

/-- C3: scrape_article is a total function into Option — a failing fetch yields the
value none, never an exception — and whenever it yields none the window pipeline
emits the sanitized feed-native fallback content for the entry instead of dropping
the entry or aborting. (The dedup-variant file src/test_local.py calls scrape_article
without defining it; that missing definition is the code bug recorded against this
claim, and this theorem proves the contract for the definition that exists in
src/rss_to_kindle.py.) -/
theorem c3_scrape_failure_recovery :
    ∀ (fetch : String → Option Forest) (t : String) (e : RawEntry),
      (fetch e.link = none → scrape_article fetch e.link = none)
      ∧ (scrape_article fetch e.link = none →
          (RssToKindle.processEntry fetch t e).content = renderF (sanitize_html (fallbackRaw e))) := by
  intro fetch t e
  constructor
  · intro h
    simp [scrape_article, h]
  · intro h
    simp [RssToKindle.processEntry, h]

/-- Witness for c3_scrape_failure_recovery at a concrete failing fetch. -/
theorem c3_scrape_failure_recovery_witness :
    scrape_article fetchFail eFall.link = none
    ∧ (RssToKindle.processEntry fetchFail "Src" eFall).content
        = renderF (sanitize_html (fallbackRaw eFall)) :=
  ⟨(c3_scrape_failure_recovery fetchFail "Src" eFall).1 rfl,
   (c3_scrape_failure_recovery fetchFail "Src" eFall).2
     ((c3_scrape_failure_recovery fetchFail "Src" eFall).1 rfl)⟩

/-- C4: a scrape whose concatenated extracted content is at most 200 characters long
is rejected (scrape_article returns none), and the content emitted for the entry is
then the sanitized feed-native fallback, chosen in priority order summary, then
description, then first content value — never the short scrape result. -/
theorem c4_short_scrape_fallback :
    ∀ (fetch : String → Option Forest) (t : String) (e : RawEntry) (paras : Forest),
      (fetch e.link = some paras → (renderF (joinParas paras)).length ≤ 200 →
        scrape_article fetch e.link = none
        ∧ (RssToKindle.processEntry fetch t e).content = renderF (sanitize_html (fallbackRaw e)))
      ∧ fallbackRaw e = e.summary.getD (e.description.getD (e.contentValue.getD .nil)) := by
  intro fetch t e paras
  constructor
  · intro h1 h2
    have hs : scrape_article fetch e.link = none := by
      simp [scrape_article, h1, Nat.not_lt.mpr h2]
    exact ⟨hs, by simp [RssToKindle.processEntry, hs]⟩
  · rfl

/-- Witness for c4_short_scrape_fallback at a concrete 9-character scrape. -/
theorem c4_short_scrape_fallback_witness :
    scrape_article fetchShort eFall.link = none
    ∧ (RssToKindle.processEntry fetchShort "Src" eFall).content
        = renderF (sanitize_html (fallbackRaw eFall)) :=
  (c4_short_scrape_fallback fetchShort "Src" eFall shortParas).1 rfl (by decide)

namespace TestLocal

/- Keys-only form of the selection loop: the selection decisions of selectGo depend
on the store only through its key list, which this function threads directly. -/
def selectList (now : Int) (keys : List String) : List RawEntry → List RawEntry
  | [] => []
  | e :: es =>
    if idOf e ∈ keys then selectList now keys es
    else if pubDate now e < cutoff now then selectList now keys es
    else e :: selectList now (keys ++ [idOf e]) es

end TestLocal

theorem processEntry_id (fetch : String → Option Forest) (llm : String → Option String)
    (t : String) (e : RawEntry) : (TestLocal.processEntry fetch llm t e).id = idOf e := rfl

theorem selectGo_fst (now : Int) (iso : String) :
    ∀ (es : List RawEntry) (store : List (String × String)),
      (TestLocal.selectGo now iso store es).1
        = TestLocal.selectList now (store.map Prod.fst) es := by
  intro es
  induction es with
  | nil => intro store; rfl
  | cons e es ih =>
    intro store
    by_cases h1 : idOf e ∈ store.map Prod.fst
    · simp [TestLocal.selectGo, TestLocal.selectList, h1, ih]
    · by_cases h2 : pubDate now e < TestLocal.cutoff now
      · simp [TestLocal.selectGo, TestLocal.selectList, h1, h2, ih]
      · simp [TestLocal.selectGo, TestLocal.selectList, h1, h2, ih]

theorem selectGo_keys (now : Int) (iso : String) :
    ∀ (es : List RawEntry) (store : List (String × String)),
      (TestLocal.selectGo now iso store es).2.map Prod.fst
        = store.map Prod.fst ++ (TestLocal.selectGo now iso store es).1.map idOf := by
  intro es
  induction es with
  | nil => intro store; simp [TestLocal.selectGo]
  | cons e es ih =>
    intro store
    by_cases h1 : idOf e ∈ store.map Prod.fst
    · simp [TestLocal.selectGo, h1, ih]
    · by_cases h2 : pubDate now e < TestLocal.cutoff now
      · simp [TestLocal.selectGo, h1, h2, ih]
      · simp [TestLocal.selectGo, h1, h2, ih]

theorem selectGo_mem (now : Int) (iso : String) :
    ∀ (es : List RawEntry) (store : List (String × String)) (p : String × String),
      p ∈ (TestLocal.selectGo now iso store es).2 → p ∈ store ∨ p.2 = iso := by
  intro es
  induction es with
  | nil =>
    intro store p hp
    exact Or.inl (by simpa [TestLocal.selectGo] using hp)
  | cons e es ih =>
    intro store p hp
    by_cases h1 : idOf e ∈ store.map Prod.fst
    · exact ih store p (by simpa [TestLocal.selectGo, h1] using hp)
    · by_cases h2 : pubDate now e < TestLocal.cutoff now
      · exact ih store p (by simpa [TestLocal.selectGo, h1, h2] using hp)
      · rcases ih (store ++ [(idOf e, iso)]) p
          (by simpa [TestLocal.selectGo, h1, h2] using hp) with h | h
        · rcases List.mem_append.mp h with h | h
          · exact Or.inl h
          · right
            simp only [List.mem_singleton] at h
            simp [h]
        · exact Or.inr h

theorem feedsGo_keys (now : Int) (fetch : String → Option Forest)
    (llm : String → Option String) (iso : String) :
    ∀ (feeds : List Feed) (store : List (String × String)),
      (TestLocal.feedsGo now fetch llm iso store feeds).2.map Prod.fst
        = store.map Prod.fst
          ++ (TestLocal.feedsGo now fetch llm iso store feeds).1.map TestLocal.Entry.id := by
  intro feeds
  induction feeds with
  | nil => intro store; simp [TestLocal.feedsGo]
  | cons fd fds ih =>
    intro store
    simp only [TestLocal.feedsGo]
    rw [ih, selectGo_keys]
    simp [List.map_map, Function.comp_def, processEntry_id]

theorem feedsGo_mem (now : Int) (fetch : String → Option Forest)
    (llm : String → Option String) (iso : String) :
    ∀ (feeds : List Feed) (store : List (String × String)) (p : String × String),
      p ∈ (TestLocal.feedsGo now fetch llm iso store feeds).2 → p ∈ store ∨ p.2 = iso := by
  intro feeds
  induction feeds with
  | nil =>
    intro store p hp
    exact Or.inl (by simpa [TestLocal.feedsGo] using hp)
  | cons fd fds ih =>
    intro store p hp
    have hp2 : p ∈ (TestLocal.feedsGo now fetch llm iso
        (TestLocal.selectGo now iso store fd.entries).2 fds).2 := by
      simpa [TestLocal.feedsGo] using hp
    rcases ih _ p hp2 with h | h
    · exact selectGo_mem now iso fd.entries store p h
    · exact Or.inr h

theorem selectList_sound (now : Int) :
    ∀ (es : List RawEntry) (keys : List String) (e : RawEntry),
      e ∈ TestLocal.selectList now keys es →
        e ∈ es ∧ idOf e ∉ keys ∧ TestLocal.cutoff now ≤ pubDate now e := by
  intro es
  induction es with
  | nil => intro keys e he; simp [TestLocal.selectList] at he
  | cons a es ih =>
    intro keys e he
    by_cases h1 : idOf a ∈ keys
    · rcases ih keys e (by simpa [TestLocal.selectList, h1] using he) with ⟨m, nk, rc⟩
      exact ⟨List.mem_cons_of_mem a m, nk, rc⟩
    · by_cases h2 : pubDate now a < TestLocal.cutoff now
      · rcases ih keys e (by simpa [TestLocal.selectList, h1, h2] using he) with ⟨m, nk, rc⟩
        exact ⟨List.mem_cons_of_mem a m, nk, rc⟩
      · have he2 : e = a ∨ e ∈ TestLocal.selectList now (keys ++ [idOf a]) es := by
          simpa [TestLocal.selectList, h1, h2] using he
        rcases he2 with rfl | he3
        · exact ⟨List.mem_cons_self e es, h1, Int.not_lt.mp h2⟩
        · rcases ih (keys ++ [idOf a]) e he3 with ⟨m, nk, rc⟩
          refine ⟨List.mem_cons_of_mem a m, fun hk => nk ?_, rc⟩
          exact List.mem_append_left _ hk

theorem selectList_complete (now : Int) :
    ∀ (es : List RawEntry) (keys : List String) (e : RawEntry),
      (es.map idOf).Nodup → e ∈ es → idOf e ∉ keys →
      TestLocal.cutoff now ≤ pubDate now e →
      e ∈ TestLocal.selectList now keys es := by
  intro es
  induction es with
  | nil => intro keys e _ he; simp at he
  | cons a es ih =>
    intro keys e hnd he hk hrc
    have hnd2 : (es.map idOf).Nodup := by simpa using hnd.of_cons
    rcases List.mem_cons.mp he with rfl | he2
    · have h2 : ¬ pubDate now e < TestLocal.cutoff now := Int.not_lt.mpr hrc
      simp [TestLocal.selectList, hk, h2]
    · by_cases h1 : idOf a ∈ keys
      · simpa [TestLocal.selectList, h1] using ih keys e hnd2 he2 hk hrc
      · by_cases h2 : pubDate now a < TestLocal.cutoff now
        · simpa [TestLocal.selectList, h1, h2] using ih keys e hnd2 he2 hk hrc
        · have hne : idOf e ≠ idOf a := by
            intro hEq
            have hna : ∀ x ∈ es, ¬ idOf x = idOf a := (by simpa using hnd : _ ∧ _).1
            exact hna e he2 hEq
          have hk2 : idOf e ∉ keys ++ [idOf a] := by
            intro hmem
            rcases List.mem_append.mp hmem with h | h
            · exact hk h
            · simp at h; exact hne h
          have := ih (keys ++ [idOf a]) e hnd2 he2 hk2 hrc
          simp [TestLocal.selectList, h1, h2, this]

/- Concrete dedup-variant entry whose id "X" is already in the persisted store. -/
def eX : RawEntry :=
  { id := some "X", title := "stale", link := "http://ex/x", published := some 1704189000,
    summary := none, description := none, contentValue := none }

/- Concrete fresh recent entry with id "Y". -/
def eY : RawEntry :=
  { id := some "Y", title := "fresh", link := "http://ex/y", published := some 1704189000,
    summary := none, description := none, contentValue := none }

/- Concrete persisted store already containing id "X". -/
def loadedX : List (String × String) := [("X", "t0")]

/- Two concrete fresh recent entries sharing the id "X", for the C2 counterexample. -/
def eDup1 : RawEntry :=
  { id := some "X", title := "A", link := "http://ex/d1", published := some 1704189000,
    summary := none, description := none, contentValue := none }

def eDup2 : RawEntry :=
  { id := some "X", title := "B", link := "http://ex/d2", published := some 1704189000,
    summary := none, description := none, contentValue := none }

/-- C2 counterexample: with an empty persisted store and a feed holding two recent
entries that share the id "X", the second entry satisfies the inclusion
condition (its id is not a key of the persisted store and it is published within the
last 24 hours) yet the dedup-variant run excludes it: the output holds only the first
entry, because the id check reads the store as mutated by the earlier selection in
the same run. -/
theorem c2_dedup_selection_counterexample :
    (TestLocal.fetch_new_entries 1704189600 fetchFail llmFail "ts" []
        [⟨"F", [eDup1, eDup2]⟩]).1.map TestLocal.Entry.title = ["A"]
    ∧ idOf eDup2 ∉ ([] : List (String × String)).map Prod.fst
    ∧ TestLocal.cutoff 1704189600 ≤ pubDate 1704189600 eDup2
    ∧ eDup2.title = "B" := by
  refine ⟨?_, by decide, by decide, rfl⟩
  rfl

/-- C2 (amended): the dedup variant includes a feed entry if and only if its id is
not a key of the store as already updated by this run — the persisted store extended
with the ids selected earlier in the run — and its publish time is at least
now - 24 h. Consequently any entry whose id is a key of the persisted store is
excluded, and when the entry ids of the feed are pairwise distinct an entry is included
exactly when its id is absent from the persisted store and it is recent. -/
theorem c2_dedup_selection :
    ∀ (now : Int) (fetch : String → Option Forest) (llm : String → Option String)
      (iso : String) (loaded : List (String × String)) (fd : Feed),
      ((TestLocal.fetch_new_entries now fetch llm iso loaded [fd]).1
        = (TestLocal.selectList now (loaded.map Prod.fst) fd.entries).map
            (TestLocal.processEntry fetch llm fd.title))
      ∧ (∀ e ∈ TestLocal.selectList now (loaded.map Prod.fst) fd.entries,
          e ∈ fd.entries ∧ idOf e ∉ loaded.map Prod.fst ∧ now - 86400 ≤ pubDate now e)
      ∧ ((fd.entries.map idOf).Nodup →
          ∀ e ∈ fd.entries, idOf e ∉ loaded.map Prod.fst → now - 86400 ≤ pubDate now e →
            e ∈ TestLocal.selectList now (loaded.map Prod.fst) fd.entries) := by
  intro now fetch llm iso loaded fd
  refine ⟨?_, ?_, ?_⟩
  · simp [TestLocal.fetch_new_entries, TestLocal.feedsGo, selectGo_fst]
  · intro e he
    exact selectList_sound now fd.entries (loaded.map Prod.fst) e he
  · intro hnd e he hk hrc
    exact selectList_complete now fd.entries (loaded.map Prod.fst) e hnd he hk hrc

/-- Witness for c2_dedup_selection: with the persisted store holding only id "X" and
a feed of entries eX (id "X") and eY (fresh id "Y"), the fresh recent entry eY is
selected and the run output is the processed selection. -/
theorem c2_dedup_selection_witness :
    eY ∈ TestLocal.selectList 1704189600 (loadedX.map Prod.fst) [eX, eY]
    ∧ (TestLocal.fetch_new_entries 1704189600 fetchFail llmFail "ts" loadedX
        [⟨"F", [eX, eY]⟩]).1
      = (TestLocal.selectList 1704189600 (loadedX.map Prod.fst) [eX, eY]).map
          (TestLocal.processEntry fetchFail llmFail "F") :=
  ⟨(c2_dedup_selection 1704189600 fetchFail llmFail "ts" loadedX ⟨"F", [eX, eY]⟩).2.2
      (by decide) eY (by simp) (by decide) (by decide),
   (c2_dedup_selection 1704189600 fetchFail llmFail "ts" loadedX ⟨"F", [eX, eY]⟩).1⟩

/-- C9: when the dedup-variant fetch_new_entries returns, the persisted store maps
exactly the keys of the loaded store followed by the ids of the entries returned by
this run, in order; every pair not already in the loaded store carries the iso
selection timestamp; and the run trace opens with the store save, so the store is
persisted inside fetch_new_entries before any digest is built or written — entries
skipped by dedup or by the time filter are not added. -/
theorem c9_store_persistence :
    ∀ (now : Int) (fetch : String → Option Forest) (llm : String → Option String)
      (iso : String) (loaded : List (String × String)) (feeds : List Feed)
      (dateShort dateLong : String),
      ((TestLocal.fetch_new_entries now fetch llm iso loaded feeds).2.map Prod.fst
        = loaded.map Prod.fst
          ++ (TestLocal.fetch_new_entries now fetch llm iso loaded feeds).1.map TestLocal.Entry.id)
      ∧ (∀ p ∈ (TestLocal.fetch_new_entries now fetch llm iso loaded feeds).2,
          p ∈ loaded ∨ p.2 = iso)
      ∧ (TestLocal.main_run now fetch llm iso loaded feeds dateShort dateLong).head?
          = some (TestLocal.Event.saveStore
              (TestLocal.fetch_new_entries now fetch llm iso loaded feeds).2) := by
  intro now fetch llm iso loaded feeds dateShort dateLong
  refine ⟨feedsGo_keys now fetch llm iso feeds loaded, ?_, rfl⟩
  intro p hp
  exact feedsGo_mem now fetch llm iso feeds loaded p hp

/-- Witness for c9_store_persistence at a concrete run: the final store keys are the
loaded key "X" followed by the newly selected id "Y", and the pair recorded for "Y"
carries the selection timestamp. -/
theorem c9_store_persistence_witness :
    ((TestLocal.fetch_new_entries 1704189600 fetchFail llmFail "ts" loadedX
        [⟨"F", [eX, eY]⟩]).2.map Prod.fst
      = loadedX.map Prod.fst
        ++ (TestLocal.fetch_new_entries 1704189600 fetchFail llmFail "ts" loadedX
            [⟨"F", [eX, eY]⟩]).1.map TestLocal.Entry.id)
    ∧ (("Y", "ts") ∈ loadedX ∨ ("Y", "ts").2 = "ts") :=
  ⟨(c9_store_persistence 1704189600 fetchFail llmFail "ts" loadedX [⟨"F", [eX, eY]⟩] "d" "D").1,
   (c9_store_persistence 1704189600 fetchFail llmFail "ts" loadedX [⟨"F", [eX, eY]⟩] "d" "D").2.1
     ("Y", "ts") (by decide)⟩

namespace RssToKindle

/- Anchor references emitted in the table of contents, one per entry in input order,
read off the tocItem template. -/
def tocHrefs (es : List Entry) : List String :=
  (enum1 es).map (fun p => "#article" ++ natStr p.1)

/- Anchor ids carried by the article sections, one per entry in input order, read off
the articleSection template. -/
def sectionIds (es : List Entry) : List String :=
  (enum1 es).map (fun p => "article" ++ natStr p.1)

end RssToKindle

theorem enum1_map_fst {α β : Type} (f : Nat → β) (es : List α) :
    (enum1 es).map (fun p => f p.1) = (List.range es.length).map (fun i => f (i + 1)) := by
  have h : (enum1 es).map (fun p => f p.1)
      = (es.enum.map Prod.fst).map (fun i => f (i + 1)) := by
    simp only [enum1, List.map_map]
    rfl
  rw [h, List.enum_map_fst]

theorem string_append_left_cancel (p a b : String) (h : p ++ a = p ++ b) : a = b := by
  have hd : p.data ++ a.data = p.data ++ b.data := by
    have h2 := congrArg String.data h
    simpa [String.data_append] using h2
  exact String.ext (List.append_cancel_left hd)

theorem anchor_injective (p : String) :
    Function.Injective (fun i : Nat => p ++ natStr (i + 1)) := by
  intro a b h
  have h2 := string_append_left_cancel p _ _ h
  have h3 := natStr_injective h2
  omega

/-- C8: the HTML digest contains, for N input entries, exactly N table-of-contents
items whose hrefs are #article1 through #articleN and exactly N article sections
carrying the matching anchor ids article1 through articleN, both lists following the
input order, and the anchor ids are pairwise distinct; for two entries the lists are
exactly [#article1, #article2] and [article1, article2]. -/
theorem c8_digest_anchors :
    (∀ (es : List RssToKindle.Entry) (digest dateShort dateLong : String),
      RssToKindle.create_html es digest dateShort dateLong
        = RssToKindle.htmlHead dateShort dateLong es.length digest
          ++ String.join ((enum1 es).map (fun p => RssToKindle.tocItem p.1 p.2))
          ++ "</ol>\n<hr>\n\n"
          ++ String.join ((enum1 es).map (fun p => RssToKindle.articleSection p.1 p.2))
          ++ "</body></html>")
    ∧ (∀ (i : Nat) (e : RssToKindle.Entry),
        RssToKindle.tocItem i e
          = "<li><a href=\"" ++ ("#article" ++ natStr i)
            ++ ("\">" ++ e.title ++ "</a> - " ++ e.source ++ "</li>\n"))
    ∧ (∀ (i : Nat) (e : RssToKindle.Entry),
        RssToKindle.articleSection i e
          = "\n<h2 id=\"" ++ ("article" ++ natStr i)
            ++ ("\">" ++ natStr i ++ ". " ++ e.title ++ "</h2>\n<p><strong>Source:</strong> "
              ++ e.source ++ "</p>\n<p><strong>Link:</strong> <a href=\"" ++ e.link ++ "\">"
              ++ e.link ++ "</a></p>\n<hr>\n" ++ e.content ++ "\n<hr>\n\n"))
    ∧ (∀ es : List RssToKindle.Entry,
        RssToKindle.tocHrefs es
            = (List.range es.length).map (fun i => "#article" ++ natStr (i + 1))
        ∧ RssToKindle.sectionIds es
            = (List.range es.length).map (fun i => "article" ++ natStr (i + 1))
        ∧ (RssToKindle.tocHrefs es).length = es.length
        ∧ (RssToKindle.sectionIds es).length = es.length
        ∧ (RssToKindle.tocHrefs es).Nodup
        ∧ (RssToKindle.sectionIds es).Nodup)
    ∧ (∀ e1 e2 : RssToKindle.Entry,
        RssToKindle.tocHrefs [e1, e2] = ["#article1", "#article2"]
        ∧ RssToKindle.sectionIds [e1, e2] = ["article1", "article2"]) := by
  refine ⟨fun es d a b => rfl, ?_, ?_, ?_, fun e1 e2 => ⟨rfl, rfl⟩⟩
  · intro i e
    simp only [RssToKindle.tocItem, String.append_assoc]
    rfl
  · intro i e
    simp only [RssToKindle.articleSection, String.append_assoc]
    rfl
  · intro es
    have ht : RssToKindle.tocHrefs es
        = (List.range es.length).map (fun i => "#article" ++ natStr (i + 1)) :=
      enum1_map_fst (fun i => "#article" ++ natStr i) es
    have hs : RssToKindle.sectionIds es
        = (List.range es.length).map (fun i => "article" ++ natStr (i + 1)) :=
      enum1_map_fst (fun i => "article" ++ natStr i) es
    refine ⟨ht, hs, ?_, ?_, ?_, ?_⟩
    · rw [ht]; simp
    · rw [hs]; simp
    · rw [ht]; exact (List.nodup_range es.length).map (anchor_injective "#article")
    · rw [hs]; exact (List.nodup_range es.length).map (anchor_injective "article")

/- Concrete entry whose title carries active markup, for C10. -/
def eEvil : RssToKindle.Entry :=
  { id := "E", title := "<script>alert(1)</script>", link := "http://ex/e",
    content := "<p>c</p>", source := "Src" }

set_option maxRecDepth 40000 in
/-- C10: only the content field is sanitized — processEntry passes title, link and
source through verbatim — and the digest and EPUB builders interpolate entry titles,
links, source names and the generated summary into their markup with no escaping; in
particular the digest built from an entry whose title is a script element contains
that markup unmodified. -/
theorem c10_unsanitized_interpolation :
    (∀ (fetch : String → Option Forest) (t : String) (e : RawEntry),
      (RssToKindle.processEntry fetch t e).title = e.title
      ∧ (RssToKindle.processEntry fetch t e).link = e.link
      ∧ (RssToKindle.processEntry fetch t e).source = t)
    ∧ (∀ (i : Nat) (e : RssToKindle.Entry),
        RssToKindle.tocItem i e
          = ("<li><a href=\"#article" ++ natStr i ++ "\">") ++ e.title
            ++ ("</a> - " ++ e.source ++ "</li>\n"))
    ∧ (∀ e : RssToKindle.Entry,
        RssToKindle.chapterContent e
          = "\n        <html><body>\n        <h1>" ++ e.title
            ++ ("</h1>\n        <p><strong>Source:</strong> " ++ e.source
              ++ "</p>\n        <p><a href=\"" ++ e.link
              ++ "\">Read online</a></p>\n        <hr/>\n        " ++ e.content
              ++ "\n        </body></html>\n        "))
    ∧ (∀ (dateLong : String) (n : Nat) (digest : String),
        RssToKindle.introContent dateLong n digest
          = ("\n    <html><body>\n    <h1>AI Research Digest</h1>\n    <p><strong>" ++ dateLong
              ++ "</strong></p>\n    <p>Compiled by RSS to Kindle</p>\n    <p>" ++ natStr n
              ++ " articles in this digest</p>\n    <h2>Digest Summary</h2>\n    <p>")
            ++ digest ++ "</p>\n    </body></html>\n    ")
    ∧ (∀ (i : Nat) (e : TestLocal.Entry),
        TestLocal.articleDiv i e
          = ("\n<mbp:pagebreak/>\n<div id=\"article" ++ natStr i ++ "\">\n<h2>" ++ e.title
              ++ "</h2>\n<p><strong>Source:</strong> " ++ e.source
              ++ "</p>\n<div class=\"summary\">\n<p><strong>AI Summary:</strong> ")
            ++ e.summary
            ++ ("</p>\n</div>\n<p><a href=\"" ++ e.link
              ++ "\">View online</a></p>\n<div class=\"full-text\">\n<h3>Full Article</h3>\n"
              ++ e.content ++ "\n</div>\n</div>\n"))
    ∧ (∃ p q : String,
        RssToKindle.create_html [eEvil] "SUM" "d" "D"
          = p ++ "<script>alert(1)</script>" ++ q) := by
  refine ⟨fun fetch t e => ⟨rfl, rfl, rfl⟩, ?_, ?_, ?_, ?_, ?_⟩
  · intro i e
    simp only [RssToKindle.tocItem, String.append_assoc]
  · intro e
    simp only [RssToKindle.chapterContent, String.append_assoc]
  · intro dateLong n digest
    simp only [RssToKindle.introContent, String.append_assoc]
  · intro i e
    simp only [TestLocal.articleDiv, String.append_assoc]
  · exact ⟨RssToKindle.htmlHead "d" "D" 1 "SUM" ++ "<li><a href=\"#article1\">",
      "</a> - Src</li>\n" ++ "</ol>\n<hr>\n\n" ++ RssToKindle.articleSection 1 eEvil
        ++ "</body></html>", rfl⟩
